import Mathlib

set_option maxHeartbeats 1000000

/- Shallow embedding of the DAgger training-orchestration core of the
   probcoll repository: general/algorithms/dagger_prediction.py together
   with the RC-car specializations in robots/rccar.  External collaborators
   (world, agent, dynamics, neural-net trainer) are abstracted as function
   parameters, exactly at the interface boundary the code calls them. -/

/-! ## Checkpoint/Resume Resolver (dagger_prediction.run, lines 142-159) -/

/-- The downward artifact scan of `run`: iterate indices `n-1` down to `0`
and return the first index at which the existence predicate holds, `none`
if the scan exhausts (the Python for-else path). -/
def findLastCkpt (p : Nat → Bool) : Nat → Option Nat
  | 0 => none
  | n + 1 => if p n then some n else findLastCkpt p n

/-- The resume index the scan leaves in the Python loop variable: the found
index plus one, or `0` when nothing is found (the exhausted downward
`xrange` leaves the variable at `0`). -/
def findResumeItr (p : Nat → Bool) (n : Nat) : Nat :=
  match findLastCkpt p n with
  | some i => i + 1
  | none => 0

/-- The consistency assertion of `run` (lines 157-159):
`model_start_itr == samples_start_itr or model_start_itr == samples_start_itr - 1
or (model_start_itr == 1 and samples_start_itr == 0)`, with Python integer
arithmetic for the subtraction. -/
def resumeAssertB (m s : Nat) : Bool :=
  (m == s) || ((m : Int) == (s : Int) - 1) || (m == 1 && s == 0)

/-- The state `run` derives at startup: the two resume indices plus the
iteration index of the checkpoint file to load (`none` when `model_file`
stays `None`). -/
structure ResumeState where
  model_start_itr : Nat
  samples_start_itr : Nat
  model_file : Option Nat
deriving DecidableEq, Repr

/-- Startup resolution of `run` (lines 142-164): both downward scans
followed by the fatal consistency assertion; `Except.error` models the
`AssertionError` abort. -/
def resolveResume (ckpt samp : Nat → Bool) (max_iter : Nat) :
    Except Unit ResumeState :=
  if resumeAssertB (findResumeItr ckpt max_iter) (findResumeItr samp max_iter) then
    Except.ok ⟨findResumeItr ckpt max_iter, findResumeItr samp max_iter,
               findLastCkpt ckpt max_iter⟩
  else Except.error ()

/-! ## Catch-up training and the training loop (run, lines 172-209) -/

/-- Epoch count passed to a training call: the standard per-iteration count
`self.bootstrap.epochs` or the elevated `init_epochs` setting. -/
inductive EpochKind where
  | standard
  | init
deriving DecidableEq, Repr

/-- One `bootstrap.train` invocation, with checkpoint files identified by
their iteration index (`old_model` is `none` when the Python code passes
`old_model_file=None`). -/
structure TrainCall where
  old_model : Option Int
  new_model : Int
  epochs : EpochKind
deriving DecidableEq, Repr

/-- The catch-up condition of `run` (lines 182-183):
`(model_start_itr == samples_start_itr - 1) or
(samples_start_itr == 0 and model_start_itr == 0 and init_data_folder is not None)`. -/
def catchupRuns (m s : Nat) (init_data : Bool) : Bool :=
  ((m : Int) == (s : Int) - 1) || (s == 0 && m == 0 && init_data)

/-- The catch-up condition as the claim words it: `model_resume_iter ==
samples_resume_iter - 1`, or the degenerate bootstrap case, which the spec
defines as model at iteration boundary 1 with samples at 0 while an
external init dataset is configured.  Stated only to compare against
`catchupRuns`, the condition the code actually tests. -/
def catchupRunsClaimed (m s : Nat) (init_data : Bool) : Bool :=
  ((m : Int) == (s : Int) - 1) || (m == 1 && s == 0 && init_data)

/-- The catch-up training call of `run` (lines 182-187): when the catch-up
condition holds, train into the checkpoint file for iteration
`model_start_itr`, with `old_model_file=None` iff `samples_start_itr <= 0`,
at the standard epoch count. -/
def catchupTrain (m s : Nat) (init_data : Bool) : Option TrainCall :=
  if catchupRuns m s init_data then
    some ⟨if s ≤ 0 then none else some (m : Int), (m : Int), EpochKind.standard⟩
  else none

/-- The per-iteration training call of the main loop (run, lines 199-209):
the dead `itr == 0 and False` branch never fires, so unless the planner is
`randomwalk` the iteration trains from checkpoint `itr-1` into checkpoint
`itr`, at the elevated init epoch count iff `itr <= 1`. -/
def loopTrainCall (planner_type : String) (itr : Nat) : Option TrainCall :=
  if planner_type ≠ "randomwalk" then
    some ⟨some ((itr : Int) - 1), (itr : Int),
          if itr > 1 then EpochKind.standard else EpochKind.init⟩
  else none

/-- The training calls emitted by the loop `for itr in xrange(start_itr,
self.max_iter)`, in order. -/
def runLoop (planner_type : String) (start_itr max_iter : Nat) : List TrainCall :=
  (List.range' start_itr (max_iter - start_itr)).filterMap (loopTrainCall planner_type)

/-! ### Resolver characterization lemmas -/

theorem findLastCkpt_none (p : Nat → Bool) :
    ∀ n, (∀ i, i < n → p i = false) → findLastCkpt p n = none := by
  intro n
  induction n with
  | zero => intro _; rfl
  | succ n ih =>
    intro h
    have hn : p n = false := h n (Nat.lt_succ_self n)
    simp only [findLastCkpt, hn, Bool.false_eq_true, if_false]
    exact ih fun i hi => h i (Nat.lt_succ_of_lt hi)

theorem findLastCkpt_some (p : Nat → Bool) :
    ∀ n i, i < n → p i = true → (∀ j, i < j → j < n → p j = false) →
      findLastCkpt p n = some i := by
  intro n
  induction n with
  | zero => intro i hi; omega
  | succ n ih =>
    intro i hi hp hafter
    by_cases hin : i = n
    · subst hin
      simp only [findLastCkpt, hp, if_true]
    · have hlt : i < n := by omega
      have hn : p n = false := hafter n hlt (Nat.lt_succ_self n)
      simp only [findLastCkpt, hn, Bool.false_eq_true, if_false]
      exact ih i hlt hp fun j hj hj2 => hafter j hj (Nat.lt_succ_of_lt hj2)

theorem findResumeItr_none (p : Nat → Bool) (n : Nat)
    (h : ∀ i, i < n → p i = false) : findResumeItr p n = 0 := by
  simp [findResumeItr, findLastCkpt_none p n h]

theorem findResumeItr_some (p : Nat → Bool) (n i : Nat) (hi : i < n)
    (hp : p i = true) (hafter : ∀ j, i < j → j < n → p j = false) :
    findResumeItr p n = i + 1 := by
  simp [findResumeItr, findLastCkpt_some p n i hi hp hafter]

/-- C1: for every on-disk store and `max_iter > 0`, the resolver of
`run` sets `model_start_itr` to one plus the largest index below
`max_iter` holding a valid checkpoint (0, with no checkpoint file to load,
if none exists), sets `samples_start_itr` to one plus the largest index
holding a samples artifact (0 if none), and aborts on the fatal assertion
exactly when the resolved pair is none of: equal, model one less than
samples, or the pair (1, 0); checkpoints at indices 0..2 with samples at
0..3 resolve to model 3 and samples 4. -/
theorem C1_resume_resolver (ckpt samp : Nat → Bool) (max_iter : Nat)
    (hpos : 0 < max_iter) :
    ((∀ i, i < max_iter → ckpt i = false) →
        findResumeItr ckpt max_iter = 0 ∧ findLastCkpt ckpt max_iter = none) ∧
    (∀ i, i < max_iter → ckpt i = true →
        (∀ j, i < j → j < max_iter → ckpt j = false) →
        findResumeItr ckpt max_iter = i + 1) ∧
    ((∀ i, i < max_iter → samp i = false) → findResumeItr samp max_iter = 0) ∧
    (∀ i, i < max_iter → samp i = true →
        (∀ j, i < j → j < max_iter → samp j = false) →
        findResumeItr samp max_iter = i + 1) ∧
    (resolveResume ckpt samp max_iter =
        Except.ok ⟨findResumeItr ckpt max_iter, findResumeItr samp max_iter,
                   findLastCkpt ckpt max_iter⟩ ↔
      resumeAssertB (findResumeItr ckpt max_iter) (findResumeItr samp max_iter) = true) ∧
    resolveResume (fun i => decide (i ≤ 2)) (fun i => decide (i ≤ 3)) 4 =
      Except.ok ⟨3, 4, some 2⟩ := by
  refine ⟨?_, ?_, ?_, ?_, ?_, by rfl⟩
  · intro h
    exact ⟨findResumeItr_none ckpt max_iter h, findLastCkpt_none ckpt max_iter h⟩
  · intro i hi hp hafter
    exact findResumeItr_some ckpt max_iter i hi hp hafter
  · intro h
    exact findResumeItr_none samp max_iter h
  · intro i hi hp hafter
    exact findResumeItr_some samp max_iter i hi hp hafter
  · unfold resolveResume
    constructor
    · intro h
      by_contra hb
      simp only [Bool.not_eq_true] at hb
      rw [hb] at h
      simp at h
    · intro h
      rw [h]
      simp

/-- Concrete store for the C1 witness: checkpoints at indices 0..2. -/
def ckptW (i : Nat) : Bool := decide (i ≤ 2)

/-- Concrete store for the C1 witness: samples at indices 0..3. -/
def sampW (i : Nat) : Bool := decide (i ≤ 3)

theorem C1_resume_resolver_witness :
    0 < 4 ∧ findResumeItr ckptW 4 = 3 ∧ findResumeItr sampW 4 = 4 ∧
      resolveResume ckptW sampW 4 = Except.ok ⟨3, 4, some 2⟩ :=
  ⟨by decide,
   (C1_resume_resolver ckptW sampW 4 (by decide)).2.1 2 (by decide) (by decide)
     (by intro j h1 h2; interval_cases j <;> rfl),
   (C1_resume_resolver ckptW sampW 4 (by decide)).2.2.2.1 3 (by decide) (by decide)
     (by intro j h1 h2; interval_cases j <;> rfl),
   by rfl⟩

/-- Planner-type string used by the RC-car configuration. -/
def plannerPrimitives : String := "primitives"

/-- The planner type that never trains (pure exploration). -/
def plannerRandomwalk : String := "randomwalk"

/-- C2 counterexample: the resolved state (model 1, samples 0) passes the
consistency assertion and is the state the spec calls the degenerate
bootstrap case, yet with an init dataset configured the code runs no
catch-up training step there, while the claim as stated requires one. -/
theorem C2_catchup_counterexample :
    resumeAssertB 1 0 = true ∧ catchupRunsClaimed 1 0 true = true ∧
      catchupRuns 1 0 true = false ∧ catchupTrain 1 0 true = none := by
  decide

/-- C2 (amended): a catch-up training step runs iff
`model_start_itr == samples_start_itr - 1` (integer arithmetic) or
`samples_start_itr = 0`, `model_start_itr = 0`, and an external init
dataset is configured; no catch-up runs in the resolved state (1, 0); when
it runs it trains into the checkpoint file for iteration
`model_start_itr` at the standard epoch count, from no old checkpoint
exactly when `samples_start_itr = 0`. -/
theorem C2_catchup_amended (m s : Nat) (init_data : Bool) :
    (catchupRuns m s init_data = true ↔
      ((m : Int) = (s : Int) - 1 ∨ (s = 0 ∧ m = 0 ∧ init_data = true))) ∧
    (catchupRuns m s init_data = true →
      catchupTrain m s init_data =
        some ⟨if s = 0 then none else some (m : Int), (m : Int),
              EpochKind.standard⟩) ∧
    catchupRuns 1 0 true = false ∧ resumeAssertB 1 0 = true := by
  refine ⟨?_, ?_, by decide, by decide⟩
  · simp [catchupRuns, and_assoc]
  · intro h
    simp [catchupTrain, h, Nat.le_zero]

theorem C2_catchup_amended_witness :
    catchupRuns 0 1 false = true ∧
      catchupTrain 0 1 false = some ⟨some 0, 0, EpochKind.standard⟩ :=
  ⟨by decide, by
    have h := (C2_catchup_amended 0 1 false).2.1 (by decide)
    simpa using h⟩

/-- C3 counterexample: in a fresh full run (resume point 0, primitives
planner, three iterations) the emitted training steps use epoch counts
init, init, standard: the second training step of the run still uses the
elevated init epochs setting, while the claim as stated allows the
elevated count only for the very first training step. -/
theorem C3_epochs_counterexample :
    (runLoop plannerPrimitives 0 3).map TrainCall.epochs =
        [EpochKind.init, EpochKind.init, EpochKind.standard] ∧
      EpochKind.init ≠ EpochKind.standard := by
  constructor
  · rfl
  · decide

/-- C3 (amended): for every non-randomwalk planner, the iteration-`itr`
training step trains from checkpoint `itr-1` into checkpoint `itr`, and
the epoch count is the elevated init setting exactly when `itr <= 1` and
the standard per-iteration count when `itr >= 2`, independent of the
resume point (a resumed run whose predecessor already trained still uses
init epochs at iteration 1). -/
theorem C3_training_loop_amended (planner_type : String)
    (h : planner_type ≠ "randomwalk") (start_itr max_iter : Nat) :
    runLoop planner_type start_itr max_iter =
      (List.range' start_itr (max_iter - start_itr)).map
        (fun itr => ⟨some ((itr : Int) - 1), (itr : Int),
                     if itr > 1 then EpochKind.standard else EpochKind.init⟩) := by
  unfold runLoop
  have hgen : ∀ l : List Nat, l.filterMap (loopTrainCall planner_type) =
      l.map (fun (itr : Nat) => (⟨some ((itr : Int) - 1), (itr : Int),
                     if itr > 1 then EpochKind.standard else EpochKind.init⟩ : TrainCall)) := by
    intro l
    induction l with
    | nil => rfl
    | cons a l ih => simp [loopTrainCall, h, ih]
  exact hgen _

theorem C3_training_loop_amended_witness :
    plannerPrimitives ≠ plannerRandomwalk ∧
      runLoop plannerPrimitives 1 3 =
        [⟨some 0, 1, EpochKind.init⟩, ⟨some 1, 2, EpochKind.standard⟩] :=
  ⟨by decide, by
    rw [C3_training_loop_amended plannerPrimitives (by decide) 1 3]
    rfl⟩

/-! ## Rollout Executor (dagger_prediction._run_itr, lines 228-271) -/

/-- The trajectory sample under construction (`Sample(meta_data=params,
T=T)`): per-timestep state, label-action and observation slots, `none`
where the corresponding setter was never called. -/
@[ext]
structure PSample (σ υ ω : Type) where
  X : Nat → Option σ
  U : Nat → Option υ
  O : Nat → Option ω

def PSample.empty {σ υ ω : Type} : PSample σ υ ω :=
  ⟨fun _ => none, fun _ => none, fun _ => none⟩

def PSample.setX {σ υ ω : Type} (s : PSample σ υ ω) (x : σ) (t : Nat) :
    PSample σ υ ω :=
  { s with X := fun j => if j = t then some x else s.X j }

def PSample.setU {σ υ ω : Type} (s : PSample σ υ ω) (u : υ) (t : Nat) :
    PSample σ υ ω :=
  { s with U := fun j => if j = t then some u else s.U j }

def PSample.setO {σ υ ω : Type} (s : PSample σ υ ω) (o : ω) (t : Nat) :
    PSample σ υ ω :=
  { s with O := fun j => if j = t then some o else s.O j }

/-- `sample_T.match(slice(0, len))`: the completed per-timestep records of
the first `len` timesteps. -/
def PSample.trim {σ υ ω : Type} (s : PSample σ υ ω) (len : Nat) :
    List (Option σ × Option υ × Option ω) :=
  (List.range len).map fun j => (s.X j, s.U j, s.O j)

/-- The collaborators of one rollout, abstracted at the interface boundary
of `_run_itr`: `samplePolicy x b t` is `agent.sample_policy(x, mpc_policy,
noise, T=1)` at timestep `t`, queried with the rollout's control noise
(`b = true`) or with `ZeroNoise` (`b = false`); `evolve` is
`dynamics.evolve`; `is_collision` is `world.is_collision(sample, t)`;
`label_with_noise` is the configuration flag; `noiseIsFalse` is the guard
`control_noise is False`. -/
structure RolloutEnv (σ υ ω : Type) where
  samplePolicy : σ → Bool → Nat → υ × ω
  evolve : σ → υ → σ
  is_collision : PSample σ υ ω → Nat → Bool
  label_with_noise : Bool
  noiseIsFalse : Bool

/-- The state the sample holds at timestep `t` along the loop: `x0` at 0,
then advanced by `dynamics.evolve` under the executed (noisy) action. -/
def stateSeq {σ υ ω : Type} (env : RolloutEnv σ υ ω) (x0 : σ) : Nat → σ
  | 0 => x0
  | t + 1 =>
      env.evolve (stateSeq env x0 t)
        (env.samplePolicy (stateSeq env x0 t) true t).1

/-- The executed (possibly noisy) action `u = rollout.get_U(t=0)` at
timestep `t`. -/
def execU {σ υ ω : Type} (env : RolloutEnv σ υ ω) (x0 : σ) (t : Nat) : υ :=
  (env.samplePolicy (stateSeq env x0 t) true t).1

/-- The recorded observation `o = rollout.get_O(t=0)` at timestep `t`. -/
def obsAt {σ υ ω : Type} (env : RolloutEnv σ υ ω) (x0 : σ) (t : Nat) : ω :=
  (env.samplePolicy (stateSeq env x0 t) true t).2

/-- The label action `u_label` recorded at timestep `t` (lines 248-251):
the executed action when labelling with noise or when the noise object is
`False`, else the zero-noise second query at the same state. -/
def uLabel {σ υ ω : Type} (env : RolloutEnv σ υ ω) (x0 : σ) (t : Nat) : υ :=
  if env.label_with_noise || env.noiseIsFalse then execU env x0 t
  else (env.samplePolicy (stateSeq env x0 t) false t).1

/-- The canonical sample at entry to loop step `t`: states set for
timesteps up to `t`, labels and observations for timesteps below `t`. -/
def preSample {σ υ ω : Type} (env : RolloutEnv σ υ ω) (x0 : σ) (t : Nat) :
    PSample σ υ ω :=
  ⟨fun j => if j ≤ t then some (stateSeq env x0 j) else none,
   fun j => if j < t then some (uLabel env x0 j) else none,
   fun j => if j < t then some (obsAt env x0 j) else none⟩

/-- The canonical sample right after recording step `t` (when
`world.is_collision` is consulted): states, labels and observations all
set for timesteps up to `t`. -/
def recordedSample {σ υ ω : Type} (env : RolloutEnv σ υ ω) (x0 : σ)
    (t : Nat) : PSample σ υ ω :=
  ⟨fun j => if j ≤ t then some (stateSeq env x0 j) else none,
   fun j => if j ≤ t then some (uLabel env x0 j) else none,
   fun j => if j ≤ t then some (obsAt env x0 j) else none⟩

/-- Whether the terminal/failure predicate fires at timestep `t`, i.e.
`world.is_collision` on the sample as recorded up to `t`. -/
def firesAt {σ υ ω : Type} (env : RolloutEnv σ υ ω) (x0 : σ) (t : Nat) :
    Bool :=
  env.is_collision (recordedSample env x0 t) t

/-- The executed action of loop step `t`, read off the live sample as the
code does (`x0 = sample_T.get_X(t=t)` then the noisy policy query). -/
def stepExec {σ υ ω : Type} [Inhabited σ] (env : RolloutEnv σ υ ω)
    (s : PSample σ υ ω) (t : Nat) : υ :=
  (env.samplePolicy ((s.X t).getD default) true t).1

/-- The observation of loop step `t`, read off the live sample. -/
def stepObs {σ υ ω : Type} [Inhabited σ] (env : RolloutEnv σ υ ω)
    (s : PSample σ υ ω) (t : Nat) : ω :=
  (env.samplePolicy ((s.X t).getD default) true t).2

/-- The label action of loop step `t`, read off the live sample. -/
def stepLabel {σ υ ω : Type} [Inhabited σ] (env : RolloutEnv σ υ ω)
    (s : PSample σ υ ω) (t : Nat) : υ :=
  if env.label_with_noise || env.noiseIsFalse then stepExec env s t
  else (env.samplePolicy ((s.X t).getD default) false t).1

/-- The per-timestep loop of `_run_itr` (lines 236-271), fuel-indexed by
the remaining `xrange(T)` steps: record label and observation at `t`;
stop at `t` if the terminal predicate fires; else advance the state via
`dynamics.evolve` when `t < T-1` and continue.  Returns the sample and
the final value of the Python loop variable `t`. -/
def rolloutLoop {σ υ ω : Type} [Inhabited σ] (env : RolloutEnv σ υ ω)
    (T : Nat) : Nat → Nat → PSample σ υ ω → PSample σ υ ω × Nat
  | 0, t, s => (s, t - 1)
  | fuel + 1, t, s =>
    if env.is_collision ((s.setU (stepLabel env s t) t).setO (stepObs env s t) t) t then
      ((s.setU (stepLabel env s t) t).setO (stepObs env s t) t, t)
    else if t < T - 1 then
      rolloutLoop env T fuel (t + 1)
        (((s.setU (stepLabel env s t) t).setO (stepObs env s t) t).setX
          (env.evolve ((s.X t).getD default) (stepExec env s t)) (t + 1))
    else
      rolloutLoop env T fuel (t + 1)
        ((s.setU (stepLabel env s t) t).setO (stepObs env s t) t)

/-- One full rollout of `_run_itr`: `sample_T.set_X(x0, t=0)` followed by
the timestep loop over `xrange(T)`. -/
def runRollout {σ υ ω : Type} [Inhabited σ] (env : RolloutEnv σ υ ω)
    (x0 : σ) (T : Nat) : PSample σ υ ω × Nat :=
  rolloutLoop env T T 0 (PSample.empty.setX x0 0)

/-- The timestep at which the loop started at step `t` ends: the first
firing timestep, else `T - 1`. -/
def stopFrom {σ υ ω : Type} (env : RolloutEnv σ υ ω) (x0 : σ) (T : Nat)
    (t : Nat) : Nat :=
  if firesAt env x0 t then t
  else if h : t < T - 1 then stopFrom env x0 T (t + 1)
  else t
termination_by T - t
decreasing_by omega

/-! ### Rollout loop characterization -/

theorem preSample_X_self {σ υ ω : Type} (env : RolloutEnv σ υ ω) (x0 : σ)
    (t : Nat) : (preSample env x0 t).X t = some (stateSeq env x0 t) := by
  simp [preSample]

theorem stepExec_pre {σ υ ω : Type} [Inhabited σ] (env : RolloutEnv σ υ ω)
    (x0 : σ) (t : Nat) :
    stepExec env (preSample env x0 t) t = execU env x0 t := by
  simp [stepExec, execU, preSample]

theorem stepObs_pre {σ υ ω : Type} [Inhabited σ] (env : RolloutEnv σ υ ω)
    (x0 : σ) (t : Nat) :
    stepObs env (preSample env x0 t) t = obsAt env x0 t := by
  simp [stepObs, obsAt, preSample]

theorem stepLabel_pre {σ υ ω : Type} [Inhabited σ] (env : RolloutEnv σ υ ω)
    (x0 : σ) (t : Nat) :
    stepLabel env (preSample env x0 t) t = uLabel env x0 t := by
  simp [stepLabel, uLabel, stepExec, execU, preSample]

theorem preSample_record {σ υ ω : Type} (env : RolloutEnv σ υ ω) (x0 : σ)
    (t : Nat) :
    ((preSample env x0 t).setU (uLabel env x0 t) t).setO (obsAt env x0 t) t =
      recordedSample env x0 t := by
  refine PSample.ext (funext fun j => ?_) (funext fun j => ?_)
    (funext fun j => ?_)
  · rfl
  · by_cases hj : j = t
    · subst hj
      simp [preSample, recordedSample, PSample.setU, PSample.setO]
    · have h2 : j < t ↔ j ≤ t := by omega
      simp [preSample, recordedSample, PSample.setU, PSample.setO, hj, h2]
  · by_cases hj : j = t
    · subst hj
      simp [preSample, recordedSample, PSample.setU, PSample.setO]
    · have h2 : j < t ↔ j ≤ t := by omega
      simp [preSample, recordedSample, PSample.setU, PSample.setO, hj, h2]

theorem recordedSample_setX {σ υ ω : Type} (env : RolloutEnv σ υ ω)
    (x0 : σ) (t : Nat) :
    (recordedSample env x0 t).setX (stateSeq env x0 (t + 1)) (t + 1) =
      preSample env x0 (t + 1) := by
  refine PSample.ext (funext fun j => ?_) (funext fun j => ?_)
    (funext fun j => ?_)
  · by_cases hj : j = t + 1
    · subst hj
      simp [preSample, recordedSample, PSample.setX]
    · have h2 : j ≤ t ↔ j ≤ t + 1 := by omega
      simp [preSample, recordedSample, PSample.setX, hj, h2]
  · simp [preSample, recordedSample, PSample.setX, Nat.lt_succ_iff]
  · simp [preSample, recordedSample, PSample.setX, Nat.lt_succ_iff]

theorem stopFrom_fires {σ υ ω : Type} (env : RolloutEnv σ υ ω) (x0 : σ)
    (T t : Nat) (h : firesAt env x0 t = true) : stopFrom env x0 T t = t := by
  rw [stopFrom]
  simp [h]

theorem stopFrom_step {σ υ ω : Type} (env : RolloutEnv σ υ ω) (x0 : σ)
    (T t : Nat) (h1 : firesAt env x0 t = false) (h2 : t < T - 1) :
    stopFrom env x0 T t = stopFrom env x0 T (t + 1) := by
  rw [stopFrom]
  simp [h1, h2]

theorem stopFrom_last {σ υ ω : Type} (env : RolloutEnv σ υ ω) (x0 : σ)
    (T t : Nat) (h1 : firesAt env x0 t = false) (h2 : ¬t < T - 1) :
    stopFrom env x0 T t = t := by
  rw [stopFrom]
  simp [h1, h2]

theorem rolloutLoop_eq {σ υ ω : Type} [Inhabited σ] (env : RolloutEnv σ υ ω)
    (x0 : σ) (T : Nat) :
    ∀ fuel t, t + fuel = T → 0 < fuel →
      rolloutLoop env T fuel t (preSample env x0 t) =
        (recordedSample env x0 (stopFrom env x0 T t), stopFrom env x0 T t) := by
  intro fuel
  induction fuel with
  | zero => intro t hT h0; omega
  | succ fuel ih =>
    intro t hT _
    rw [rolloutLoop, stepLabel_pre, stepObs_pre, preSample_record,
        stepExec_pre, preSample_X_self]
    simp only [Option.getD_some]
    rw [show env.is_collision (recordedSample env x0 t) t = firesAt env x0 t
          from rfl]
    by_cases hfire : firesAt env x0 t = true
    · rw [hfire, stopFrom_fires env x0 T t hfire]
      simp
    · have hf : firesAt env x0 t = false := by
        simpa using hfire
      rw [hf]
      simp only [Bool.false_eq_true, if_false]
      by_cases hlt : t < T - 1
      · rw [if_pos hlt,
            show env.evolve (stateSeq env x0 t) (execU env x0 t) =
              stateSeq env x0 (t + 1) from rfl,
            recordedSample_setX,
            stopFrom_step env x0 T t hf hlt]
        exact ih (t + 1) (by omega) (by omega)
      · have hfuel : fuel = 0 := by omega
        subst hfuel
        rw [if_neg hlt, stopFrom_last env x0 T t hf hlt, rolloutLoop]
        simp

theorem initSample_eq {σ υ ω : Type} (env : RolloutEnv σ υ ω) (x0 : σ) :
    (PSample.empty.setX x0 0 : PSample σ υ ω) = preSample env x0 0 := by
  refine PSample.ext (funext fun j => ?_) (funext fun j => ?_)
    (funext fun j => ?_)
  · by_cases hj : j = 0
    · subst hj
      simp [PSample.empty, PSample.setX, preSample, stateSeq]
    · simp [PSample.empty, PSample.setX, preSample, hj]
  · simp [PSample.empty, PSample.setX, preSample]
  · simp [PSample.empty, PSample.setX, preSample]

theorem runRollout_eq {σ υ ω : Type} [Inhabited σ] (env : RolloutEnv σ υ ω)
    (x0 : σ) (T : Nat) (hT : 0 < T) :
    runRollout env x0 T =
      (recordedSample env x0 (stopFrom env x0 T 0), stopFrom env x0 T 0) := by
  rw [runRollout, initSample_eq env x0]
  exact rolloutLoop_eq env x0 T T 0 (by omega) hT

theorem stopFrom_first_fire {σ υ ω : Type} (env : RolloutEnv σ υ ω) (x0 : σ)
    (T tstar : Nat) (hts : tstar < T) (hf : firesAt env x0 tstar = true) :
    ∀ d t, tstar - t = d → t ≤ tstar →
      (∀ j, t ≤ j → j < tstar → firesAt env x0 j = false) →
      stopFrom env x0 T t = tstar := by
  intro d
  induction d with
  | zero =>
    intro t hd ht _
    have heq : t = tstar := by omega
    subst heq
    exact stopFrom_fires env x0 T t hf
  | succ d ih =>
    intro t hd ht hpre
    have htlt : t < tstar := by omega
    have hft : firesAt env x0 t = false := hpre t (Nat.le_refl t) htlt
    have hlt : t < T - 1 := by omega
    rw [stopFrom_step env x0 T t hft hlt]
    exact ih (t + 1) (by omega) (by omega) fun j hj1 hj2 => hpre j (by omega) hj2

theorem stopFrom_no_fire {σ υ ω : Type} (env : RolloutEnv σ υ ω) (x0 : σ)
    (T : Nat) :
    ∀ d t, T - 1 - t = d → t < T →
      (∀ j, t ≤ j → j < T → firesAt env x0 j = false) →
      stopFrom env x0 T t = T - 1 := by
  intro d
  induction d with
  | zero =>
    intro t hd ht hpre
    have h1 : firesAt env x0 t = false := hpre t (Nat.le_refl t) ht
    have h2 : ¬t < T - 1 := by omega
    rw [stopFrom_last env x0 T t h1 h2]
    omega
  | succ d ih =>
    intro t hd ht hpre
    have h1 : firesAt env x0 t = false := hpre t (Nat.le_refl t) ht
    have hlt : t < T - 1 := by omega
    rw [stopFrom_step env x0 T t h1 hlt]
    exact ih (t + 1) (by omega) (by omega) fun j hj1 hj2 => hpre j (by omega) hj2

/-- C4: for every executed rollout timestep `t`, if the configuration
labels with noise or the noise object is `False`, the label recorded at
`t` is the executed (possibly noisy) action; otherwise the label is the
zero-noise second policy query at the same state; in both cases the state
recorded at `t+1` (when step `t+1` executes) is `dynamics.evolve` of the
state under the noisy executed action, not the label. -/
theorem C4_label_separation {σ υ ω : Type} [Inhabited σ]
    (env : RolloutEnv σ υ ω) (x0 : σ) (T t : Nat) (hT : 0 < T)
    (ht : t ≤ (runRollout env x0 T).2) :
    ((env.label_with_noise || env.noiseIsFalse) = true →
        (runRollout env x0 T).1.U t = some (execU env x0 t)) ∧
    ((env.label_with_noise || env.noiseIsFalse) = false →
        (runRollout env x0 T).1.U t =
          some (env.samplePolicy (stateSeq env x0 t) false t).1) ∧
    (runRollout env x0 T).1.X t = some (stateSeq env x0 t) ∧
    (t + 1 ≤ (runRollout env x0 T).2 →
        (runRollout env x0 T).1.X (t + 1) =
          some (env.evolve (stateSeq env x0 t) (execU env x0 t))) := by
  rw [runRollout_eq env x0 T hT] at ht ⊢
  refine ⟨?_, ?_, ?_, ?_⟩
  · intro hcond
    simp only [recordedSample]
    rw [if_pos ht]
    simp [uLabel, hcond]
  · intro hcond
    simp only [recordedSample]
    rw [if_pos ht]
    simp [uLabel, hcond]
  · simp only [recordedSample]
    rw [if_pos ht]
  · intro ht1
    simp only [recordedSample] at ht1 ⊢
    rw [if_pos ht1]
    rfl

/-- C4 witness collaborators: the nominal action equals the state, the
exploration noise adds 1, the dynamics add the executed action, labelling
with noise is disabled, and the terminal predicate never fires. -/
def envNoisy : RolloutEnv Int Int Int :=
  ⟨fun x b _ => (x + (if b then 1 else 0), 0), fun x u => x + u,
   fun _ _ => false, false, false⟩

theorem C4_label_separation_witness :
    0 < 3 ∧ 1 ≤ (runRollout envNoisy 0 3).2 ∧
      (runRollout envNoisy 0 3).1.U 1 = some 1 ∧
      (runRollout envNoisy 0 3).1.X 2 = some 3 :=
  ⟨by decide, by decide,
   by
     have h := (C4_label_separation envNoisy 0 3 1 (by decide) (by decide)).2.1 rfl
     exact h.trans (by decide),
   by
     have h :=
       (C4_label_separation envNoisy 0 3 1 (by decide) (by decide)).2.2.2 (by decide)
     exact h.trans (by decide)⟩

/-- C5: if the terminal predicate first fires at timestep `tstar < T`, the
rollout stops at `tstar`, the trimmed sample `sample_T.match(slice(0,
t+1))` has length exactly `tstar + 1`, and `set_X` was never called past
`tstar` (those state slots are `none`); if the predicate never fires, the
loop runs to `t = T - 1` and the trimmed sample has length exactly `T`. -/
theorem C5_rollout_truncation {σ υ ω : Type} [Inhabited σ]
    (env : RolloutEnv σ υ ω) (x0 : σ) (T tstar : Nat) (hT : 0 < T) :
    (tstar < T → firesAt env x0 tstar = true →
        (∀ j, j < tstar → firesAt env x0 j = false) →
        (runRollout env x0 T).2 = tstar ∧
        ((runRollout env x0 T).1.trim ((runRollout env x0 T).2 + 1)).length =
          tstar + 1 ∧
        ∀ j, tstar < j → (runRollout env x0 T).1.X j = none) ∧
    ((∀ j, j < T → firesAt env x0 j = false) →
        (runRollout env x0 T).2 = T - 1 ∧
        ((runRollout env x0 T).1.trim ((runRollout env x0 T).2 + 1)).length = T) := by
  rw [runRollout_eq env x0 T hT]
  constructor
  · intro h1 h2 h3
    have hs : stopFrom env x0 T 0 = tstar :=
      stopFrom_first_fire env x0 T tstar h1 h2 tstar 0 (by omega) (by omega)
        fun j hj1 hj2 => h3 j hj2
    refine ⟨hs, ?_, ?_⟩
    · simp [PSample.trim, hs]
    · intro j hj
      simp only [recordedSample, hs]
      rw [if_neg (by omega)]
  · intro h
    have hs : stopFrom env x0 T 0 = T - 1 :=
      stopFrom_no_fire env x0 T (T - 1) 0 (by omega) hT fun j hj1 hj2 => h j hj2
    refine ⟨hs, ?_⟩
    simp [PSample.trim, hs]
    omega

/-- C5 witness collaborators: the terminal predicate fires exactly at
timestep 1. -/
def envCrash : RolloutEnv Int Int Int :=
  ⟨fun x _ _ => (x, x), fun x u => x + u, fun _ t => t == 1, true, false⟩

theorem C5_rollout_truncation_witness :
    (0 < 4 ∧ 1 < 4 ∧ firesAt envCrash 0 1 = true) ∧
      (runRollout envCrash 0 4).2 = 1 ∧
      ((runRollout envCrash 0 4).1.trim ((runRollout envCrash 0 4).2 + 1)).length = 2 ∧
      (runRollout envCrash 0 4).1.X 3 = none := by
  have h := (C5_rollout_truncation envCrash 0 4 1 (by decide)).1 (by decide)
    (by decide) (by decide)
  exact ⟨⟨by decide, by decide, by decide⟩, h.1, h.2.1, h.2.2 3 (by decide)⟩

/-- robots/rccar/dynamics/dynamics_rccar.py, `DynamicsRCcar.evolve` (lines
14-20): the linear update is commented out and the function returns its
state argument unchanged, whatever the optional derivative arguments. -/
def dynamicsRCcar_evolve {X U A B C : Type} (x : X) (u : U)
    (fx : Option A) (fu : Option B) (f0 : Option C) : X := x

theorem stateSeq_const {σ υ ω : Type} (env : RolloutEnv σ υ ω) (x0 : σ)
    (hid : ∀ (x : σ) (u : υ), env.evolve x u = x) :
    ∀ t, stateSeq env x0 t = x0 := by
  intro t
  induction t with
  | zero => rfl
  | succ t ih => rw [stateSeq, hid, ih]

/-- C10: the RC-car `evolve` returns its state argument unchanged for all
states, controls and optional derivative arguments, so in a rollout whose
dynamics are the RC-car dynamics, the state recorded at every executed
timestep equals the initial state `x0`. -/
theorem C10_identity_dynamics {σ υ ω A B C : Type} [Inhabited σ]
    (env : RolloutEnv σ υ ω) (x0 : σ) (T t : Nat) (hT : 0 < T)
    (henv : env.evolve = fun (x : σ) (u : υ) =>
      dynamicsRCcar_evolve x u (none : Option A) (none : Option B)
        (none : Option C))
    (ht : t ≤ (runRollout env x0 T).2) :
    (∀ (x : σ) (u : υ) (fx : Option A) (fb : Option B) (fc : Option C),
        dynamicsRCcar_evolve x u fx fb fc = x) ∧
    stateSeq env x0 t = x0 ∧
    (runRollout env x0 T).1.X t = some x0 := by
  have hid : ∀ (x : σ) (u : υ), env.evolve x u = x := by
    intro x u
    rw [henv]
    rfl
  refine ⟨fun x u fx fb fc => rfl, stateSeq_const env x0 hid t, ?_⟩
  rw [runRollout_eq env x0 T hT] at ht ⊢
  simp only [recordedSample]
  rw [if_pos ht, stateSeq_const env x0 hid t]

/-- C10 witness collaborators: RC-car identity dynamics hooked into a
rollout whose policy would move the state if the dynamics let it. -/
def envIdent : RolloutEnv Int Int Int :=
  ⟨fun x _ _ => (x + 5, 0),
   fun x u => dynamicsRCcar_evolve x u (none : Option Unit)
     (none : Option Unit) (none : Option Unit),
   fun _ _ => false, true, false⟩

theorem C10_identity_dynamics_witness :
    0 < 2 ∧ 1 ≤ (runRollout envIdent 0 2).2 ∧
      dynamicsRCcar_evolve (7 : Int) (3 : Int) (none : Option Unit)
        (none : Option Unit) (none : Option Unit) = 7 ∧
      stateSeq envIdent 0 1 = 0 ∧
      (runRollout envIdent 0 2).1.X 1 = some 0 := by
  have h := C10_identity_dynamics (A := Unit) (B := Unit) (C := Unit)
    envIdent 0 2 1 (by decide) rfl (by decide)
  exact ⟨by decide, by decide, h.1 7 3 none none none, h.2.1, h.2.2⟩

/-! ## Iteration Driver (dagger_prediction._run_itr, lines 211-295) -/

/-- Result of the retry loop of one (condition, repetition) slot. -/
inductive SlotResult where
  | accepted (attempt : Nat)
  | assertFail (attempt : Nat)
  | fuelOut
deriving DecidableEq, Repr

/-- The retry loop of one (condition, repetition) slot (lines 222-289),
fuel-indexed over generated rollouts: a rollout rejected by
`_is_good_rollout` is discarded and the slot retried (the `continue` at
line 277 — the attempt counter advances but `rep` does not); an accepted
rollout is appended and must pass `assert(samples[-1].isfinite())`, whose
violation aborts the whole run; only then does `rep += 1` execute.
`good a` is the quality-gate verdict and `fin a` the finiteness of the
rollout generated on attempt `a` of this slot. -/
def slotLoop (good fin : Nat → Bool) : Nat → Nat → SlotResult
  | 0, _ => SlotResult.fuelOut
  | fuel + 1, a =>
    if !good a then slotLoop good fin fuel (a + 1)
    else if fin a then SlotResult.accepted a
    else SlotResult.assertFail a

/-- Outcome of the collection loops of `_run_itr`: the accepted slots in
order, an `AssertionError` abort, or an unfinished retry loop (the code
retries without bound; exhausted fuel models a still-running loop). -/
inductive ItrOutcome (α : Type) where
  | ok (accepted : List α)
  | assertFail
  | fuelOut
deriving DecidableEq, Repr

/-- The repetition loop of one condition (`while rep <
self.conditions.repeats`, line 222), indexed by the remaining repetition
count `repeats - rep`; collects for each repetition the attempt index of
its accepted rollout. -/
def condLoop (good fin : Nat → Nat → Bool) (slotFuel : Nat) :
    Nat → Nat → ItrOutcome (Nat × Nat)
  | 0, _ => ItrOutcome.ok []
  | remaining + 1, rep =>
    match slotLoop (good rep) (fin rep) slotFuel 0 with
    | SlotResult.accepted a =>
      match condLoop good fin slotFuel remaining (rep + 1) with
      | ItrOutcome.ok l => ItrOutcome.ok ((rep, a) :: l)
      | ItrOutcome.assertFail => ItrOutcome.assertFail
      | ItrOutcome.fuelOut => ItrOutcome.fuelOut
    | SlotResult.assertFail _ => ItrOutcome.assertFail
    | SlotResult.fuelOut => ItrOutcome.fuelOut

/-- The condition loop (`for cond in xrange(self.conditions.length)`, line
220), indexed by the remaining condition count. -/
def condsLoop (good fin : Nat → Nat → Nat → Bool) (slotFuel repeats : Nat) :
    Nat → Nat → ItrOutcome (Nat × Nat × Nat)
  | 0, _ => ItrOutcome.ok []
  | remaining + 1, cond =>
    match condLoop (good cond) (fin cond) slotFuel repeats 0 with
    | ItrOutcome.ok l =>
      match condsLoop good fin slotFuel repeats remaining (cond + 1) with
      | ItrOutcome.ok l2 =>
          ItrOutcome.ok ((l.map fun p => (cond, p.1, p.2)) ++ l2)
      | ItrOutcome.assertFail => ItrOutcome.assertFail
      | ItrOutcome.fuelOut => ItrOutcome.fuelOut
    | ItrOutcome.assertFail => ItrOutcome.assertFail
    | ItrOutcome.fuelOut => ItrOutcome.fuelOut

/-- The collection phase of `_run_itr` for one iteration: all conditions,
all repetitions, retrying rejected rollouts in place. -/
def iterDriver (numConds repeats : Nat) (good fin : Nat → Nat → Nat → Bool)
    (slotFuel : Nat) : ItrOutcome (Nat × Nat × Nat) :=
  condsLoop good fin slotFuel repeats numConds 0

/-- The slots an iteration is expected to persist: every (condition,
repetition) pair together with the attempt index of its accepted rollout. -/
def expectedSlots (numConds repeats : Nat) (K : Nat → Nat → Nat) :
    List (Nat × Nat × Nat) :=
  (List.range' 0 numConds).flatMap fun c =>
    (List.range' 0 repeats).map fun r => (c, r, K c r)

theorem slotLoop_firstAccept (good fin : Nat → Bool) (K : Nat) :
    ∀ fuel a, a ≤ K → K < a + fuel →
      (∀ j, a ≤ j → j < K → good j = false) → good K = true →
      slotLoop good fin fuel a =
        if fin K = true then SlotResult.accepted K
        else SlotResult.assertFail K := by
  intro fuel
  induction fuel with
  | zero => intro a h1 h2 _ _; omega
  | succ fuel ih =>
    intro a h1 h2 hrej hacc
    by_cases ha : a = K
    · subst ha
      rw [slotLoop]
      simp [hacc]
    · have hg : good a = false := hrej a (Nat.le_refl a) (by omega)
      rw [slotLoop]
      simp only [hg, Bool.not_false, if_true]
      exact ih (a + 1) (by omega) (by omega)
        (fun j hj1 hj2 => hrej j (by omega) hj2) hacc

theorem condLoop_ok (good fin : Nat → Nat → Bool) (slotFuel : Nat)
    (K : Nat → Nat) :
    ∀ remaining rep,
      (∀ r, rep ≤ r → r < rep + remaining →
        slotLoop (good r) (fin r) slotFuel 0 = SlotResult.accepted (K r)) →
      condLoop good fin slotFuel remaining rep =
        ItrOutcome.ok ((List.range' rep remaining).map fun r => (r, K r)) := by
  intro remaining
  induction remaining with
  | zero => intro rep _; rfl
  | succ remaining ih =>
    intro rep hslot
    rw [condLoop, hslot rep (Nat.le_refl rep) (by omega),
        ih (rep + 1) fun r h1 h2 => hslot r (by omega) (by omega)]
    rfl

theorem condsLoop_ok (good fin : Nat → Nat → Nat → Bool)
    (slotFuel repeats : Nat) (L : Nat → List (Nat × Nat)) :
    ∀ remaining cond,
      (∀ c, cond ≤ c → c < cond + remaining →
        condLoop (good c) (fin c) slotFuel repeats 0 = ItrOutcome.ok (L c)) →
      condsLoop good fin slotFuel repeats remaining cond =
        ItrOutcome.ok ((List.range' cond remaining).flatMap
          fun c => (L c).map fun p => (c, p.1, p.2)) := by
  intro remaining
  induction remaining with
  | zero => intro cond _; rfl
  | succ remaining ih =>
    intro cond hcond
    rw [condsLoop, hcond cond (Nat.le_refl cond) (by omega),
        ih (cond + 1) fun c h1 h2 => hcond c (by omega) (by omega)]
    rfl

theorem expectedSlots_length (numConds repeats : Nat) (K : Nat → Nat → Nat) :
    (expectedSlots numConds repeats K).length = numConds * repeats := by
  have h : ∀ n s, ((List.range' s n).flatMap fun c =>
      (List.range' 0 repeats).map fun r => (c, r, K c r)).length = n * repeats := by
    intro n
    induction n with
    | zero => intro s; simp
    | succ n ih =>
      intro s
      rw [List.range'_succ, List.flatMap_cons, List.length_append, ih (s + 1),
          List.length_map, List.length_range', Nat.succ_mul]
      omega
  exact h numConds 0

/-- C6: when the quality gate of each (condition, repetition) slot rejects
all attempts before attempt `K c r` and accepts attempt `K c r` (finite),
the iteration collects exactly `numConds * repeats` accepted samples, one
per slot, each being the (K+1)-th rollout generated for its slot: the
repetition counter never advances on rejection and every rejection retries
the same slot. -/
theorem C6_rollout_retry (numConds repeats slotFuel : Nat)
    (good fin : Nat → Nat → Nat → Bool) (K : Nat → Nat → Nat)
    (hK : ∀ c, c < numConds → ∀ r, r < repeats → K c r < slotFuel)
    (hrej : ∀ c, c < numConds → ∀ r, r < repeats → ∀ a, a < K c r →
      good c r a = false)
    (hacc : ∀ c, c < numConds → ∀ r, r < repeats → good c r (K c r) = true)
    (hfin : ∀ c, c < numConds → ∀ r, r < repeats → fin c r (K c r) = true) :
    iterDriver numConds repeats good fin slotFuel =
      ItrOutcome.ok (expectedSlots numConds repeats K) ∧
    (expectedSlots numConds repeats K).length = numConds * repeats := by
  refine ⟨?_, expectedSlots_length numConds repeats K⟩
  have hLc : ∀ c, 0 ≤ c → c < 0 + numConds →
      condLoop (good c) (fin c) slotFuel repeats 0 =
        ItrOutcome.ok ((List.range' 0 repeats).map fun r => (r, K c r)) := by
    intro c hc1 hc2
    have hc : c < numConds := by omega
    refine condLoop_ok (good c) (fin c) slotFuel (K c) repeats 0 ?_
    intro r h1 h2
    have hr : r < repeats := by omega
    have h := slotLoop_firstAccept (good c r) (fin c r) (K c r) slotFuel 0
      (Nat.zero_le _) (by have := hK c hc r hr; omega)
      (fun j hj1 hj2 => hrej c hc r hr j hj2) (hacc c hc r hr)
    rw [hfin c hc r hr] at h
    simpa using h
  rw [iterDriver, condsLoop_ok good fin slotFuel repeats
      (fun c => (List.range' 0 repeats).map fun r => (r, K c r)) numConds 0 hLc]
  rw [expectedSlots]
  simp only [List.map_map]
  rfl

/-- C6 witness gate: slot (c, r) rejects its first c + r rollout attempts
and accepts the next one; every accepted rollout is finite. -/
def goodW6 (c r a : Nat) : Bool := a == c + r

/-- C6 witness finiteness: every rollout is finite. -/
def finW6 (c r a : Nat) : Bool := true

/-- C6 witness first-accepted-attempt function. -/
def KW6 (c r : Nat) : Nat := c + r

theorem C6_rollout_retry_witness :
    iterDriver 2 2 goodW6 finW6 4 = ItrOutcome.ok (expectedSlots 2 2 KW6) ∧
      (expectedSlots 2 2 KW6).length = 2 * 2 ∧
      expectedSlots 2 2 KW6 =
        [(0, 0, 0), (0, 1, 1), (1, 0, 1), (1, 1, 2)] := by
  have h := C6_rollout_retry 2 2 4 goodW6 finW6 KW6
    (by decide) (by decide) (by decide) (by decide)
  exact ⟨h.1, h.2, by rfl⟩

/-- C7: once the quality gate accepts the rollout of attempt `K` (having
rejected all earlier attempts), the slot's outcome is decided by the
finiteness of that accepted rollout alone: finite means accepted, not
finite means the fatal `assert(samples[-1].isfinite())` aborts the run
instead of retrying; the finiteness of gate-rejected attempts is never
consulted (any finiteness assignment agreeing at `K` yields the same
outcome); and an assertion abort inside a repetition aborts the whole
repetition loop before the repetition counter advances. -/
theorem C7_finite_assert (good fin fin2 : Nat → Bool)
    (goodC finC : Nat → Nat → Bool) (slotFuel repeats K r0 A : Nat)
    (hK : K < slotFuel) (hrej : ∀ j, j < K → good j = false)
    (hacc : good K = true) (hagree : fin2 K = fin K)
    (hr0 : r0 < repeats)
    (hslot : slotLoop (goodC r0) (finC r0) slotFuel 0 =
      SlotResult.assertFail A) :
    (slotLoop good fin slotFuel 0 =
        if fin K = true then SlotResult.accepted K
        else SlotResult.assertFail K) ∧
    slotLoop good fin2 slotFuel 0 = slotLoop good fin slotFuel 0 ∧
    (fin K = false → slotLoop good fin slotFuel 0 = SlotResult.assertFail K) ∧
    condLoop goodC finC slotFuel (repeats - r0) r0 = ItrOutcome.assertFail := by
  have h1 := slotLoop_firstAccept good fin K slotFuel 0 (Nat.zero_le K)
    (by omega) (fun j hj1 hj2 => hrej j hj2) hacc
  have h2 := slotLoop_firstAccept good fin2 K slotFuel 0 (Nat.zero_le K)
    (by omega) (fun j hj1 hj2 => hrej j hj2) hacc
  refine ⟨h1, ?_, ?_, ?_⟩
  · rw [h1, h2, hagree]
  · intro hf
    rw [h1, hf]
    simp
  · obtain ⟨rem, hrem⟩ : ∃ rem, repeats - r0 = rem + 1 :=
      ⟨repeats - r0 - 1, by omega⟩
    rw [hrem, condLoop, hslot]

/-- C7 witness gate: rejects attempts 0 and 1, accepts attempt 2. -/
def goodW7 (a : Nat) : Bool := a == 2

/-- C7 witness finiteness: the accepted rollout is not finite. -/
def finW7 (a : Nat) : Bool := false

/-- C7 witness alternative finiteness, agreeing with `finW7` at the
accepted attempt but different at the rejected ones. -/
def finW7b (a : Nat) : Bool := decide (a < 2)

/-- C7 witness condition-level gate: accepts the first attempt. -/
def goodCW7 (r a : Nat) : Bool := a == 0

/-- C7 witness condition-level finiteness: never finite. -/
def finCW7 (r a : Nat) : Bool := false

theorem C7_finite_assert_witness :
    (2 < 5 ∧ goodW7 2 = true ∧ finW7b 2 = finW7 2 ∧ 0 < 1 ∧
        slotLoop (goodCW7 0) (finCW7 0) 5 0 = SlotResult.assertFail 0) ∧
      slotLoop goodW7 finW7 5 0 = SlotResult.assertFail 2 ∧
      slotLoop goodW7 finW7b 5 0 = slotLoop goodW7 finW7 5 0 ∧
      condLoop goodCW7 finCW7 5 (1 - 0) 0 = ItrOutcome.assertFail := by
  have h := C7_finite_assert goodW7 finW7 finW7b goodCW7 finCW7 5 1 2 0 0
    (by decide) (by decide) (by decide) (by decide) (by decide) (by decide)
  exact ⟨⟨by decide, by decide, by decide, by decide, by decide⟩,
    h.2.2.1 (by decide), h.2.1, h.2.2.2⟩

/-! ## Iteration Record persistence (_run_itr lines 291-293,
_itr_save_worlds lines 103-106, ProbcollRCcar._itr_save_worlds line 64) -/

/-- One on-disk artifact write of the persistence epilogue. -/
inductive PersistEvent where
  | samples (itr : Nat)
  | worlds (itr : Nat)
  | mpcs (itr : Nat)
deriving DecidableEq, Repr

/-- The persistence epilogue of `_run_itr` (lines 291-293): three
sequential plain writes — samples first, then world metadata, then
controller metadata — with no temp-file-and-rename step. -/
def persistSeq (itr : Nat) : List PersistEvent :=
  [PersistEvent.samples itr, PersistEvent.worlds itr, PersistEvent.mpcs itr]

/-- The same epilogue under the RC-car override: `ProbcollRCcar.
_itr_save_worlds` is `pass`, so the world-metadata artifact is never
written. -/
def persistSeqRCcar (itr : Nat) : List PersistEvent :=
  [PersistEvent.samples itr, PersistEvent.mpcs itr]

/-- The write events `_run_itr` emits for iteration `itr`: the epilogue
runs only when the collection loops complete; an `AssertionError` or a
still-retrying rollout never reaches line 291. -/
def runItrPersist (numConds repeats : Nat) (good fin : Nat → Nat → Nat → Bool)
    (slotFuel itr : Nat) : List PersistEvent :=
  match iterDriver numConds repeats good fin slotFuel with
  | ItrOutcome.ok _ => persistSeq itr
  | ItrOutcome.assertFail => []
  | ItrOutcome.fuelOut => []

/-- C8 counterexample: after the first write of the persistence epilogue
(the prefix of length one of the write sequence) the samples artifact
exists while the world-metadata artifact does not, so the store is
observable with a samples artifact but without the iteration's other
artifacts; under the RC-car override the world artifact is absent even
from the completed write sequence. -/
theorem C8_atomicity_counterexample :
    (persistSeq 0).take 1 = [PersistEvent.samples 0] ∧
      PersistEvent.samples 0 ∈ (persistSeq 0).take 1 ∧
      PersistEvent.worlds 0 ∉ (persistSeq 0).take 1 ∧
      PersistEvent.samples 0 ∈ persistSeqRCcar 0 ∧
      PersistEvent.worlds 0 ∉ persistSeqRCcar 0 := by
  refine ⟨rfl, by decide, by decide, by decide, by decide⟩

/-- C8 (amended): the Iteration Record is persisted only after all
conditions and repetitions of the iteration complete — no write event is
emitted when the iteration aborts on the finiteness assertion or is still
retrying — but it is written as three sequential artifact writes with the
samples artifact first, not as one atomic unit. -/
theorem C8_persistence_amended (numConds repeats slotFuel itr : Nat)
    (good fin : Nat → Nat → Nat → Bool) :
    (iterDriver numConds repeats good fin slotFuel = ItrOutcome.assertFail →
        runItrPersist numConds repeats good fin slotFuel itr = []) ∧
    (iterDriver numConds repeats good fin slotFuel = ItrOutcome.fuelOut →
        runItrPersist numConds repeats good fin slotFuel itr = []) ∧
    (∀ l, iterDriver numConds repeats good fin slotFuel = ItrOutcome.ok l →
        runItrPersist numConds repeats good fin slotFuel itr =
          [PersistEvent.samples itr] ++
            [PersistEvent.worlds itr, PersistEvent.mpcs itr]) := by
  refine ⟨?_, ?_, ?_⟩
  · intro h
    rw [runItrPersist, h]
  · intro h
    rw [runItrPersist, h]
  · intro l h
    rw [runItrPersist, h]
    rfl

/-- C8 witness gate: accepts everything. -/
def goodAllW (c r a : Nat) : Bool := true

/-- C8 witness finiteness: everything finite. -/
def finAllW (c r a : Nat) : Bool := true

theorem C8_persistence_amended_witness :
    iterDriver 1 1 goodAllW finAllW 1 = ItrOutcome.ok [(0, 0, 0)] ∧
      runItrPersist 1 1 goodAllW finAllW 1 0 =
        [PersistEvent.samples 0, PersistEvent.worlds 0, PersistEvent.mpcs 0] := by
  refine ⟨by decide, ?_⟩
  exact (C8_persistence_amended 1 1 1 0 goodAllW finAllW).2.2 [(0, 0, 0)] (by decide)

/-! ## Hardware quality confirmation wait
(probcoll_rccar._ros_is_good_rollout, lines 91-101) -/

/-- Outcome of the confirmation wait: the `True` return, the `False`
return, or the implicit `None` return when `rospy.is_shutdown()` ends the
loop — the run-aborted outcome, distinct from both verdicts. -/
inductive WaitOutcome where
  | good
  | bad
  | aborted
deriving DecidableEq, Repr

/-- `rospy.sleep(0.1)`: the wait sleeps a tenth of a second between
indecisive polls. -/
def pollSleepSeconds : ℚ := 1 / 10

/-- The wait loop of `_ros_is_good_rollout` (lines 94-101), fuel-indexed:
at poll `k` it first checks `rospy.is_shutdown()` (exiting with the
aborted outcome), then reads the two callback signals, returns a verdict
only when exactly one is asserted, and otherwise sleeps
`pollSleepSeconds` and polls again.  The result carries the poll index at
which the wait ended — also the number of sleeps taken; `none` models a
wait still blocked after `fuel` polls.  The two `get()` calls before the
loop (lines 92-93) clear stale signals, so the streams are post-clear
readings. -/
def rosIsGoodRollout (shutdown good bad : Nat → Bool) :
    Nat → Nat → Option (WaitOutcome × Nat)
  | 0, _ => none
  | fuel + 1, k =>
    if shutdown k then some (WaitOutcome.aborted, k)
    else if good k && !bad k then some (WaitOutcome.good, k)
    else if bad k && !good k then some (WaitOutcome.bad, k)
    else rosIsGoodRollout shutdown good bad fuel (k + 1)

theorem rosLoop_skip (shutdown good bad : Nat → Bool) (f k : Nat)
    (h1 : shutdown k = false) (h2 : good k = bad k) :
    rosIsGoodRollout shutdown good bad (f + 1) k =
      rosIsGoodRollout shutdown good bad f (k + 1) := by
  rw [rosIsGoodRollout]
  simp [h1, h2]

theorem rosLoop_reach (shutdown good bad : Nat → Bool) (Kp : Nat)
    (hpre : ∀ j, j < Kp → shutdown j = false ∧ good j = bad j) :
    ∀ d a f, Kp - a = d → a ≤ Kp → Kp < a + f →
      rosIsGoodRollout shutdown good bad f a =
        rosIsGoodRollout shutdown good bad (f - (Kp - a)) Kp := by
  intro d
  induction d with
  | zero =>
    intro a f hd ha hf
    have heq : a = Kp := by omega
    subst heq
    simp
  | succ d ih =>
    intro a f hd ha hf
    have haK : a < Kp := by omega
    obtain ⟨f2, rfl⟩ : ∃ f2, f = f2 + 1 := ⟨f - 1, by omega⟩
    rw [rosLoop_skip shutdown good bad f2 a (hpre a haK).1 (hpre a haK).2,
        ih (a + 1) f2 (by omega) (by omega) (by omega)]
    congr 1
    omega

/-- C9: the wait polls the two signals repeatedly with a 0.1-second sleep
between polls; a poll where both or neither signal is asserted produces no
verdict (with no decisive poll and no shutdown the wait stays blocked for
any poll budget); the shutdown flag is checked at the top of every poll,
before the signals, so when shutdown first appears at a poll the wait
exits with the aborted outcome — never an accept/reject verdict —
whatever the signals read; otherwise the first poll asserting exactly one
signal yields that verdict, after one sleep per indecisive poll. -/
theorem C9_confirmation_wait (shutdown good bad : Nat → Bool) (fuel Kp : Nat)
    (hK : Kp < fuel)
    (hpre : ∀ j, j < Kp → shutdown j = false ∧ good j = bad j) :
    (shutdown Kp = true →
        rosIsGoodRollout shutdown good bad fuel 0 =
          some (WaitOutcome.aborted, Kp)) ∧
    (shutdown Kp = false → good Kp = true → bad Kp = false →
        rosIsGoodRollout shutdown good bad fuel 0 =
          some (WaitOutcome.good, Kp)) ∧
    (shutdown Kp = false → bad Kp = true → good Kp = false →
        rosIsGoodRollout shutdown good bad fuel 0 =
          some (WaitOutcome.bad, Kp)) ∧
    ((∀ j, shutdown j = false ∧ good j = bad j) →
        ∀ f, rosIsGoodRollout shutdown good bad f 0 = none) ∧
    pollSleepSeconds = 1 / 10 := by
  have hreach : rosIsGoodRollout shutdown good bad fuel 0 =
      rosIsGoodRollout shutdown good bad (fuel - Kp) Kp :=
    rosLoop_reach shutdown good bad Kp hpre Kp 0 fuel rfl (Nat.zero_le Kp)
      (by omega)
  obtain ⟨f2, hf2⟩ : ∃ f2, fuel - Kp = f2 + 1 := ⟨fuel - Kp - 1, by omega⟩
  refine ⟨?_, ?_, ?_, ?_, rfl⟩
  · intro hs
    rw [hreach, hf2, rosIsGoodRollout, hs]
    simp
  · intro hs hg hb
    rw [hreach, hf2, rosIsGoodRollout, hs]
    simp [hg, hb]
  · intro hs hb hg
    rw [hreach, hf2, rosIsGoodRollout, hs]
    simp [hg, hb]
  · intro hall
    have hnever : ∀ f k, rosIsGoodRollout shutdown good bad f k = none := by
      intro f
      induction f with
      | zero => intro k; rfl
      | succ f ih =>
        intro k
        rw [rosLoop_skip shutdown good bad f k (hall k).1 (hall k).2]
        exact ih (k + 1)
    intro f
    exact hnever f 0

/-- C9 witness shutdown stream: shutdown is signalled from poll 2 on. -/
def shutW9 (k : Nat) : Bool := decide (2 ≤ k)

/-- C9 witness accepted-signal stream: never asserted. -/
def goodW9 (k : Nat) : Bool := false

/-- C9 witness rejected-signal stream: never asserted. -/
def badW9 (k : Nat) : Bool := false

theorem C9_confirmation_wait_witness :
    (2 < 5 ∧ shutW9 2 = true) ∧
      rosIsGoodRollout shutW9 goodW9 badW9 5 0 =
        some (WaitOutcome.aborted, 2) ∧
      pollSleepSeconds = 1 / 10 := by
  have h := C9_confirmation_wait shutW9 goodW9 badW9 5 2 (by decide) (by decide)
  exact ⟨⟨by decide, by decide⟩, h.1 (by decide), h.2.2.2.2⟩
